import Mathlib

/-!
Verification of the loggo GCP reader (`internal/reader/gcp_reader.go`).

Shallow embedding conventions:
* Go `map[string]interface{}` values are modelled as association lists
  `List (String × J)` where `J` is a JSON value model; `encoding/json`
  marshalling of the protobuf `LogEntry` struct is modelled by
  `marshalEntry` (keys follow the generated struct's json tags; the
  `oneof` payload interface field has no json tag, hence key `Payload`).
* `time.Time` instants are modelled as seconds since the Unix epoch
  (`Nat`); `.Local()` is modelled as the UTC zone (the zone offset is
  irrelevant to every property considered here), so `Format(RFC3339)`
  prints a trailing `Z`.
* Panics are modelled explicitly: a function that can panic returns an
  `Option`/outcome with a distinguished panicking result.  A deferred
  `recover` covers only the goroutine it was registered on, so the
  producer goroutine spawned by `StreamInto` is modelled as propagating
  its panics (constructor `crashed`) rather than feeding them to the
  recover in `StreamInto`.
* Blocking channel sends are modelled by an environment predicate
  `closed : Nat → Bool` (indexed by send count): a send while the
  channel is closed panics, mirroring Go's send-on-closed-channel panic.
-/

namespace Loggo

/-- JSON value model (Go `interface{}` after `encoding/json` round trip). -/
inductive J where
  | null : J
  | bool : Bool → J
  | num : Int → J
  | str : String → J
  | arr : List J → J
  | obj : List (String × J) → J

/-- Lookup in a Go map model (association list). -/
def mget : List (String × J) → String → Option J
  | [], _ => none
  | p :: l, k => if p.1 = k then some p.2 else mget l k

/-- Deletion `delete(m, k)` in a Go map model. -/
def mdel : List (String × J) → String → List (String × J)
  | [], _ => []
  | p :: l, k => if p.1 = k then mdel l k else p :: mdel l k

/-- Assignment `m[k] = v` in a Go map model. -/
def mset (m : List (String × J)) (k : String) (v : J) : List (String × J) :=
  mdel m k ++ [(k, v)]

/-! ### Date formatting: `time.Time.Format(time.RFC3339)` -/

/-- Decimal digit character (`'0' + n % 10`). -/
def digCh (n : Nat) : Char := Char.ofNat (48 + n % 10)

/-- Two right-aligned zero-padded decimal digits (Go `%02d` for `n < 100`). -/
def pad2 (n : Nat) : List Char := [digCh (n / 10), digCh n]

/-- Four right-aligned zero-padded decimal digits (Go year field, `n < 10000`). -/
def pad4 (n : Nat) : List Char := [digCh (n / 1000), digCh (n / 100), digCh (n / 10), digCh n]

/-- Gregorian date from days since the Unix epoch (civil-from-days algorithm,
as implemented by Go's `time` package date computation). -/
def civilFromDays (z : Nat) : Nat × Nat × Nat :=
  let zz := z + 719468
  let era := zz / 146097
  let doe := zz % 146097
  let yoe := (doe - doe / 1460 + doe / 36524 - doe / 146097) / 365
  let y := yoe + era * 400
  let doy := doe - (365 * yoe + yoe / 4 - yoe / 100)
  let mp := (5 * doy + 2) / 153
  let d := doy - (153 * mp + 2) / 5 + 1
  let mo := if mp < 10 then mp + 3 else mp - 9
  (if mo ≤ 2 then y + 1 else y, mo, d)

/-- Formatting `time.Unix(t,0).Local().Format(time.RFC3339)`; the local zone is modelled
as UTC, hence the trailing `Z`. -/
def rfc3339 (t : Nat) : String :=
  let days := t / 86400
  let secs := t % 86400
  let ymd := civilFromDays days
  String.mk (pad4 ymd.1 ++ ['-'] ++ pad2 ymd.2.1 ++ ['-'] ++ pad2 ymd.2.2 ++ ['T'] ++
    pad2 (secs / 3600) ++ [':'] ++ pad2 (secs % 3600 / 60) ++ [':'] ++ pad2 (secs % 60) ++ ['Z'])

/-! ### The `loggingpb.LogEntry` model and `massageEntryLog` -/

/-- The protobuf `oneof payload` of a `LogEntry`: a structured payload, a
free-text payload, a protobuf payload (e.g. audit logs), or unset. -/
inductive Payload where
  | jsonP : List (String × J) → Payload
  | textP : String → Payload
  | protoP : J → Payload
  | nilP : Payload

/-- The fields of `loggingpb.LogEntry` relevant to the reader.  `timestamp`
and `receiveTimestamp` are `none` when the protobuf message field is unset. -/
structure LogEntry where
  logName : String
  timestamp : Option Nat
  receiveTimestamp : Option Nat
  severity : Nat
  payload : Payload

/-- Getter `resp.GetTimestamp().AsTime()`: a nil protobuf timestamp yields the epoch. -/
def getTimestamp (e : LogEntry) : Nat := e.timestamp.getD 0

/-- Getter `resp.GetTextPayload()`: empty string unless the oneof holds a text payload. -/
def getTextPayload (e : LogEntry) : String :=
  match e.payload with
  | .textP s => s
  | _ => ""

/-- Test `resp.GetJsonPayload() != nil`. -/
def isJsonPayload (e : LogEntry) : Bool :=
  match e.payload with
  | .jsonP _ => true
  | _ => false

/-- Rendering `resp.GetSeverity().String()`: the `LogSeverity` enum name, or the decimal
value for an unregistered enum number. -/
def sevName (n : Nat) : String :=
  if n = 0 then "DEFAULT"
  else if n = 100 then "DEBUG"
  else if n = 200 then "INFO"
  else if n = 300 then "NOTICE"
  else if n = 400 then "WARNING"
  else if n = 500 then "ERROR"
  else if n = 600 then "CRITICAL"
  else if n = 700 then "ALERT"
  else if n = 800 then "EMERGENCY"
  else toString n

/-- Marshalling by `encoding/json` of the oneof wrapper structs
(`LogEntry_JsonPayload` etc.; the wrapper field has no json tag, so the Go
field name is used as the key).  A `structpb.Struct` marshals as an object
with a `fields` key. -/
def marshalPayload : Payload → J
  | .jsonP fs => .obj [("JsonPayload", .obj [("fields", .obj fs)])]
  | .textP s => .obj [("TextPayload", .str s)]
  | .protoP v => .obj [("ProtoPayload", v)]
  | .nilP => .null

/-- Marshalling `json.Marshal(resp)` followed by `json.Unmarshal` into a
`map[string]interface{}`: tagged regular fields use their snake-case json
tags with `omitempty`; the untagged oneof interface field marshals under
the Go field name `Payload`. -/
def marshalEntry (e : LogEntry) : List (String × J) :=
  (if e.logName = "" then [] else [("log_name", J.str e.logName)]) ++
  (match e.timestamp with
   | none => []
   | some t => [("timestamp", J.obj [("seconds", J.num t)])]) ++
  (match e.receiveTimestamp with
   | none => []
   | some t => [("receive_timestamp", J.obj [("seconds", J.num t)])]) ++
  (if e.severity = 0 then [] else [("severity", J.num e.severity)]) ++
  [("Payload", marshalPayload e.payload)]

/-- The Go type assertion `x.(map[string]interface{})`: succeeds only on an
object, otherwise panics. -/
def asObj : J → Option (List (String × J))
  | .obj m => some m
  | _ => none

/-- Function `massageEntryLog`, up to (but not including) the final `json.Marshal` of
the map: returns the normalized record map together with the watermark
string, or `none` where the Go code would panic (the `.(map[string]...)`
type assertion on a non-object / missing `Payload` value). -/
def massageMap (e : LogEntry) : Option (List (String × J) × String) :=
  let lastTime := rfc3339 (getTimestamp e)
  let m0 := marshalEntry e
  let m1 := mset m0 "severity" (J.str (sevName e.severity))
  let m2 := mset m1 "timestamp" (J.str lastTime)
  let m3 :=
    if isJsonPayload e then
      match (mget m2 "Payload").bind asObj with
      | some pm => some (mset m2 "jsonPayload" ((mget pm "JsonPayload").getD J.null))
      | none => none
    else if (getTextPayload e).length > 0 then
      match (mget m2 "Payload").bind asObj with
      | some pm => some (mset m2 "textPayload" ((mget pm "TextPayload").getD J.null))
      | none => none
    else some m2
  m3.map (fun m => (mdel (mdel m "Payload") "receive_timestamp", lastTime))

/-- JSON escaping of one character (quote and backslash, as `encoding/json`
does for the characters occurring here). -/
def escapeChar (c : Char) : String :=
  if c = '"' then "\\\"" else if c = '\\' then "\\\\" else String.mk [c]

/-- JSON string body escaping. -/
def escapeStr (s : String) : String :=
  s.data.foldl (fun acc c => acc ++ escapeChar c) ""

mutual

/-- Serialization of a JSON value (the final `json.Marshal(m)`). -/
def serializeJ : J → String
  | .null => "null"
  | .bool b => if b then "true" else "false"
  | .num n => toString n
  | .str s => "\"" ++ escapeStr s ++ "\""
  | .arr xs => "[" ++ serializeArr xs ++ "]"
  | .obj kvs => "\x7b" ++ serializeObj kvs ++ "\x7d"

/-- Serialization of a JSON array body. -/
def serializeArr : List J → String
  | [] => ""
  | [x] => serializeJ x
  | x :: y :: xs => serializeJ x ++ "," ++ serializeArr (y :: xs)

/-- Serialization of a JSON object body. -/
def serializeObj : List (String × J) → String
  | [] => ""
  | [kv] => "\"" ++ escapeStr kv.1 ++ "\":" ++ serializeJ kv.2
  | kv :: kv2 :: xs => "\"" ++ escapeStr kv.1 ++ "\":" ++ serializeJ kv.2 ++ "," ++ serializeObj (kv2 :: xs)

end

/-- Function `massageEntryLog`: returns the marshalled record bytes and the watermark
string, or `none` where the Go code would panic. -/
def massageEntryLog (e : LogEntry) : Option (String × String) :=
  (massageMap e).map (fun p => (serializeJ (.obj p.1), p.2))

/-- Closed form of the record map `massageEntryLog` builds (proved equal to
`massageMap` below): base fields plus severity/timestamp overrides, the
hoisted payload key, with the payload wrapper and the receive-side
bookkeeping field removed. -/
def massageRecord (e : LogEntry) : List (String × J) :=
  let m2 := mset (mset (marshalEntry e) "severity" (J.str (sevName e.severity)))
    "timestamp" (J.str (rfc3339 (getTimestamp e)))
  let m3 :=
    match e.payload with
    | .jsonP fs => mset m2 "jsonPayload" (J.obj [("fields", J.obj fs)])
    | .textP s => if 0 < s.length then mset m2 "textPayload" (J.str s) else m2
    | _ => m2
  mdel (mdel m3 "Payload") "receive_timestamp"

/-- A concrete structured-payload entry (severity INFO, timestamp 100s). -/
def eJson : LogEntry := ⟨"lg", some 100, some 101, 200, .jsonP [("a", J.str "b")]⟩

/-- A concrete entry whose free-text payload is the empty string. -/
def eTextEmpty : LogEntry := ⟨"lg", some 3, some 4, 200, .textP ""⟩

/-! ### `ParseFrom` -/

/-- ASCII whitespace (the cases of `unicode.IsSpace` relevant here). -/
def isSpaceC (c : Char) : Bool :=
  c = ' ' || c = '\t' || c = '\n' || c = '\r'

/-- Trimming as in `strings.TrimSpace`. -/
def trimSpace (s : String) : String :=
  String.mk (((s.data.dropWhile isSpaceC).reverse.dropWhile isSpaceC).reverse)

/-- The regex match for relative durations: digits followed by one unit
character in s, m, d, h (the pattern used by `ParseFrom`). -/
def matchF (cs : List Char) : Bool :=
  !cs.dropLast.isEmpty && cs.dropLast.all (fun c => c.isDigit) &&
    (match cs.getLast? with
     | some c => c = 's' || c = 'm' || c = 'd' || c = 'h'
     | none => false)

/-- Decimal value of a digit character. -/
def dval (c : Char) : Nat := c.toNat - 48

/-- A wall-clock timestamp broken into its civil fields. -/
structure DateTime where
  y : Nat
  mo : Nat
  d : Nat
  h : Nat
  mi : Nat
  s : Nat

/-- Shape-level parse of a timestamp of the form used with layout
2006-01-02T15:04:05: four year digits, then month, day, hour, minute and
second as two digits each with the literal separators.  This is the
shape tested by the date regex of `ParseFrom`. -/
def parseDT (cs : List Char) : Option DateTime :=
  match cs with
  | [y1, y2, y3, y4, c1, m1, m2, c2, d1, d2, c3, h1, h2, c4, n1, n2, c5, s1, s2] =>
    if (c1 = '-' && c2 = '-' && c3 = 'T' && c4 = ':' && c5 = ':') &&
        ([y1, y2, y3, y4, m1, m2, d1, d2, h1, h2, n1, n2, s1, s2].all (fun c => c.isDigit)) then
      some ⟨dval y1 * 1000 + dval y2 * 100 + dval y3 * 10 + dval y4,
            dval m1 * 10 + dval m2, dval d1 * 10 + dval d2,
            dval h1 * 10 + dval h2, dval n1 * 10 + dval n2,
            dval s1 * 10 + dval s2⟩
    else none
  | _ => none

/-- The date regex of `ParseFrom` (shape only, as a regex matches). -/
def matchD (cs : List Char) : Bool := (parseDT cs).isSome

/-- Gregorian leap year. -/
def isLeap (y : Nat) : Bool := (y % 4 = 0 && y % 100 ≠ 0) || y % 400 = 0

/-- Days in a month, as validated by Go `time.Parse`. -/
def daysInMonth (y mo : Nat) : Nat :=
  if mo = 2 then (if isLeap y then 29 else 28)
  else if mo = 4 || mo = 6 || mo = 9 || mo = 11 then 30
  else 31

/-- The field-range checks Go `time.Parse` performs on a parsed timestamp. -/
def validDT (dt : DateTime) : Bool :=
  1 ≤ dt.mo && dt.mo ≤ 12 && 1 ≤ dt.d && dt.d ≤ daysInMonth dt.y dt.mo &&
    dt.h < 24 && dt.mi < 60 && dt.s < 60

/-- Go `time.Parse` with layout 2006-01-02T15:04:05: shape parse followed
by field-range validation; `none` models a returned parse error. -/
def goTimeParse (cs : List Char) : Option DateTime :=
  match parseDT cs with
  | some dt => if validDT dt then some dt else none
  | none => none

/-- Formatting of the civil fields with the same fixed-width layout
(used both by the layout string and, with a Z suffix, by RFC3339 for a
UTC instant). -/
def fmtDT (dt : DateTime) : String :=
  String.mk (pad4 dt.y ++ ['-'] ++ pad2 dt.mo ++ ['-'] ++ pad2 dt.d ++ ['T'] ++
    pad2 dt.h ++ [':'] ++ pad2 dt.mi ++ [':'] ++ pad2 dt.s)

/-- Parsing `strconv.ParseInt` of a digit string, ignoring the error as the Go code
does.  (The int64 overflow clamp of `ParseInt` is not modelled; no claim
depends on the numeric value of oversized durations.) -/
def natOfDigits (cs : List Char) : Nat :=
  cs.foldl (fun a c => a * 10 + dval c) 0

/-- The seconds of a relative duration (`time.Second/Minute/Hour` times the
parsed integer; unit d is 24 h).  Simplifications no claim depends on:
exact arithmetic (Go's int64 nanosecond overflow is not modelled), and in
`ParseFrom` below `now - relSecs` truncates at the epoch. -/
def relSecs (cs : List Char) : Nat :=
  let numb := natOfDigits cs.dropLast
  match cs.getLast? with
  | some 's' => numb
  | some 'm' => numb * 60
  | some 'h' => numb * 3600
  | some 'd' => numb * 3600 * 24
  | _ => 0

/-- Function `ParseFrom`.  `now` is the wall clock in epoch seconds.  A returned
`Except.error` models `util.Log().Fatal` (process termination of the
invoking command); the two messages are the two Fatal sites of the code. -/
def ParseFrom (now : Nat) (str : String) : Except String String :=
  let cs := (trimSpace str).data
  if cs = "tail".data then .ok "tail"
  else if matchF cs then .ok (rfc3339 (now - relSecs cs))
  else if matchD cs then
    match goTimeParse cs with
    | some dt => .ok (fmtDT dt ++ "Z")
    | none => .error "Invalid parameter for 'from' flag - bad format: "
  else .error "Invalid parameter for 'from' flag."

/-! ### The reader state machine: `MakeGCPReader`, `streamFrom`, `streamTail`,
`StreamInto`, `Close` -/

/-- The `gcpStream` configuration produced by `MakeGCPReader` (the channel
and callback live in the world model below). -/
structure GCPStream where
  projectID : String
  filter : String
  freshness : String
  isTail : Bool

/-- Constructor `MakeGCPReader`: `isTail` is set iff the resolved freshness is the
sentinel tail. -/
def MakeGCPReader (project filter freshness : String) : GCPStream :=
  ⟨project, filter, freshness, freshness == "tail"⟩

/-- The remote historical source: for the k-th loop iteration and the query
filter actually sent, the drained iterator yields a list of entries followed
optionally by an error from `it.Next()` (after the listed entries). -/
def Oracle : Type := Nat → String → List LogEntry × Option String

/-- One `stream.Recv()` result in tail mode. -/
inductive Chunk where
  | entries : List LogEntry → Chunk
  | eof : Chunk
  | recvErr : String → Chunk

/-- The remote tail source. -/
structure TailEnv where
  openErr : Option String
  sendErr : Option String
  chunks : Nat → Chunk

/-- The world a producer run interacts with: the two remote sources, the
reads of the `stop` flag (indexed by historical loop iteration) and the
state of the output channel (indexed by send count; `true` means `Close`
has already closed the channel, so a send panics). -/
structure World where
  src : Oracle
  tailEnv : TailEnv
  stop : Nat → Bool
  closed : Nat → Bool

/-- Emission of one drained page (or one tail chunk): massage each entry and
send it on the channel.  Returns an optional panic message together with the
accumulated sent records (newest first, paired with the entry timestamp),
the send count and the updated watermark. -/
def emitEntries (closed : Nat → Bool) :
    List LogEntry → Nat → String → List (String × Nat) →
    Option String × List (String × Nat) × Nat × String
  | [], sc, lt, acc => (none, acc, sc, lt)
  | e :: es, sc, lt, acc =>
    match massageEntryLog e with
    | none => (some "interface conversion panic", acc, sc, lt)
    | some (b, t) =>
      if closed sc then (some "send on closed channel", acc, sc, lt)
      else emitEntries closed es (sc + 1) t ((b, getTimestamp e) :: acc)

/-- Outcome of `streamFrom`: it returns nil either because the built filter
repeated (`toTail`) or because the stop flag was observed (`stopped`); it
returns an iterator error (`failed`); a panic propagates (`panicked`); or
the modelling fuel ran out (`fuelOut`).  `out` is the list of sent records
in send order paired with entry timestamps; `filters` is the history of
built (pre-user-filter) filters in iteration order, including the repeated
one. -/
inductive FromRes where
  | toTail : List (String × Nat) → List String → Nat → String → FromRes
  | stopped : List (String × Nat) → List String → Nat → String → FromRes
  | failed : List (String × Nat) → List String → Nat → String → FromRes
  | panicked : List (String × Nat) → List String → Nat → String → FromRes
  | fuelOut : List (String × Nat) → List String → Nat → FromRes

/-- The bare filter `streamFrom` builds from the watermark at each
iteration (the value compared against the previous iteration's filter). -/
def buildFilter (lastTime : String) : String :=
  "timestamp > \"" ++ lastTime ++ "\""

/-- The filter actually sent with the query: the bare filter, conjoined
with the user's filter when one is set. -/
def histQuery (uf lastTime : String) : String :=
  if 0 < uf.length then
    "timestamp > \"" ++ lastTime ++ "\" AND (" ++ uf ++ ")"
  else buildFilter lastTime

/-- The loop of `streamFrom`.  State: iteration index `k`, watermark
`lastTime`, previous built filter `lastFilter`, accumulated sends `acc`
(newest first), built-filter history `fs` (newest first), send count `sc`. -/
def streamFromAux (uf : String) (src : Oracle) (stop : Nat → Bool) (closed : Nat → Bool) :
    Nat → Nat → String → String → List (String × Nat) → List String → Nat → FromRes
  | 0, _, _, _, acc, fs, sc => .fuelOut acc.reverse fs.reverse sc
  | fuel + 1, k, lastTime, lastFilter, acc, fs, sc =>
    if stop k then .stopped acc.reverse fs.reverse sc lastTime
    else
      let filter := buildFilter lastTime
      if filter = lastFilter then .toTail acc.reverse (filter :: fs).reverse sc lastTime
      else
        let qfilter := histQuery uf lastTime
        let resp := src k qfilter
        let step := emitEntries closed resp.1 sc lastTime acc
        match step.1 with
        | some msg => .panicked (step.2.1).reverse (filter :: fs).reverse step.2.2.1 msg
        | none =>
          match resp.2 with
          | some e => .failed (step.2.1).reverse (filter :: fs).reverse step.2.2.1 e
          | none =>
            streamFromAux uf src stop closed fuel (k + 1) step.2.2.2 filter step.2.1 (filter :: fs) step.2.2.1

/-- Function `streamFrom`, from the initial state: watermark = freshness, empty
previous filter. -/
def streamFrom (st : GCPStream) (w : World) (fuel : Nat) : FromRes :=
  streamFromAux st.filter w.src w.stop w.closed fuel 0 st.freshness "" [] [] 0

/-- Outcome of `streamTail`: clean end of stream (`ok`), a transport error
(`failed`), a propagating panic (`panicked`), or fuel exhaustion.  Note the
absence of any stop-flag outcome: the receive loop of `streamTail` never
reads the stop flag. -/
inductive TailRes where
  | ok : List (String × Nat) → Nat → TailRes
  | failed : List (String × Nat) → Nat → String → TailRes
  | panicked : List (String × Nat) → Nat → String → TailRes
  | fuelOut : List (String × Nat) → Nat → TailRes

/-- The receive loop of `streamTail`. -/
def streamTailAux (te : TailEnv) (closed : Nat → Bool) :
    Nat → Nat → List (String × Nat) → Nat → TailRes
  | 0, _, acc, sc => .fuelOut acc.reverse sc
  | fuel + 1, k, acc, sc =>
    match te.chunks k with
    | .eof => .ok acc.reverse sc
    | .recvErr e => .failed acc.reverse sc e
    | .entries es =>
      let step := emitEntries closed es sc "" acc
      match step.1 with
      | some msg => .panicked (step.2.1).reverse step.2.2.1 msg
      | none => streamTailAux te closed fuel (k + 1) step.2.1 step.2.2.1

/-- Function `streamTail`: open the bidirectional stream, send the single initial
request (resource scope and user filter), then the receive loop.  `sc0`
continues the channel send count of a preceding historical phase. -/
def streamTail (te : TailEnv) (closed : Nat → Bool) (sc0 : Nat) (fuel : Nat) : TailRes :=
  match te.openErr with
  | some e => .failed [] sc0 e
  | none =>
    match te.sendErr with
    | some e => .failed [] sc0 e
    | none => streamTailAux te closed fuel 0 [] sc0

/-- Trace of one producer-goroutine run: total sends, how many times tail
mode was entered, the built historical filters, the error handed to the
error callback (at most one), the propagating panic if the goroutine
crashed, and whether the modelling fuel sufficed. -/
structure PTrace where
  out : List (String × Nat)
  tailEntries : Nat
  histFilters : List String
  reported : Option String
  crashed : Option String
  fuelOk : Bool

/-- Conversion of a tail-phase result into the trace of the goroutine body
(`prev` are sends of a preceding historical phase, `fs` its filters). -/
def tailTrace (prev : List (String × Nat)) (fs : List String) : TailRes → PTrace
  | .ok out _ => ⟨prev ++ out, 1, fs, none, none, true⟩
  | .failed out _ e => ⟨prev ++ out, 1, fs, some e, none, true⟩
  | .panicked out _ m => ⟨prev ++ out, 1, fs, none, some m, true⟩
  | .fuelOut out _ => ⟨prev ++ out, 1, fs, none, none, false⟩

/-- The body of the goroutine spawned by `StreamInto`: tail mode directly
when `isTail`; otherwise `streamFrom`, and — whenever `streamFrom` returns
nil, i.e. both on a repeated filter and on a stop-flag exit — a fallback
into `streamTail`.  A non-nil error is handed to the error callback once; a
panic propagates out of the goroutine uncaught (the deferred recover of
`StreamInto` belongs to the spawning goroutine). -/
def runProducer (st : GCPStream) (w : World) (fuel : Nat) : PTrace :=
  if st.isTail then tailTrace [] [] (streamTail w.tailEnv w.closed 0 fuel)
  else
    match streamFrom st w fuel with
    | .toTail out fs sc _ => tailTrace out fs (streamTail w.tailEnv w.closed sc fuel)
    | .stopped out fs sc _ => tailTrace out fs (streamTail w.tailEnv w.closed sc fuel)
    | .failed out fs _ e => ⟨out, 0, fs, some e, none, true⟩
    | .panicked out fs _ m => ⟨out, 0, fs, none, some m, true⟩
    | .fuelOut out fs _ => ⟨out, 0, fs, none, none, false⟩

/-- The synchronous setup of `StreamInto`: `gcp.LoggingClient` may fail with
an error or panic. -/
structure SetupEnv where
  clientPanic : Option String
  clientErr : Option String

/-- Function `StreamInto`: the deferred recover turns a panic of the synchronous part
into the returned error; a client error is returned directly; otherwise the
producer goroutine is spawned and `StreamInto` returns nil.  The second
component is the trace of the spawned goroutine, if one was spawned. -/
def StreamInto (st : GCPStream) (se : SetupEnv) (w : World) (fuel : Nat) :
    Option String × Option PTrace :=
  match se.clientPanic with
  | some p => (some p, none)
  | none =>
    match se.clientErr with
    | some e => (some e, none)
    | none => (none, some (runProducer st w fuel))

/-! ### `CheckAuth` -/

/-- The environment `CheckAuth` runs against: client construction, the
`ListLogs` access probe (`it.Next()`; note `iterator.Done` is itself a
non-nil error), the `gcp.IsGCloud` flag, the delegated `gcloud` login
subprocess, and the modal UI run. -/
structure AuthEnv where
  clientErr : Option String
  probeErr : Option String
  isGCloud : Bool
  gcloudRunErr : Option String
  appRunErr : Option String

/-- How a call to `CheckAuth` ends: a returned error value, process
termination via `util.Log().Fatal`, or a panic. -/
inductive AuthOutcome where
  | ret : Option String → AuthOutcome
  | fatalExit : String → AuthOutcome
  | panicked : String → AuthOutcome

/-- Function `CheckAuth`: probe; on probe failure run the interactive flow (embedded
OAuth, or delegated `gcloud` login whose failure is Fatal), panic if the
modal UI fails; finally return nil. -/
def CheckAuth (env : AuthEnv) : AuthOutcome :=
  let err :=
    match env.clientErr with
    | some e => some e
    | none => env.probeErr
  match err with
  | none => .ret none
  | some _ =>
    if env.isGCloud then
      match env.gcloudRunErr with
      | some e => .fatalExit e
      | none =>
        match env.appRunErr with
        | some e => .panicked e
        | none => .ret none
    else
      match env.appRunErr with
      | some e => .panicked e
      | none => .ret none

/-- The error value `CheckAuth` returns when it returns at all. -/
def retError : AuthOutcome → Option String
  | .ret e => e
  | _ => none

/-! ### Projections, predicates and concrete environments used in the
statements below -/

/-- The records sent by a historical phase, in send order. -/
def fromResOut : FromRes → List (String × Nat)
  | .toTail out _ _ _ => out
  | .stopped out _ _ _ => out
  | .failed out _ _ _ => out
  | .panicked out _ _ _ => out
  | .fuelOut out _ _ => out

/-- The built-filter history of a historical-phase result. -/
def resFilters : FromRes → List String
  | .toTail _ fs _ _ => fs
  | .stopped _ fs _ _ => fs
  | .failed _ fs _ _ => fs
  | .panicked _ fs _ _ => fs
  | .fuelOut _ fs _ => fs

/-- Whether the historical phase ended by the repeated-filter exit. -/
def resIsToTail : FromRes → Bool
  | .toTail _ _ _ _ => true
  | _ => false

/-- No two consecutive built filters were equal. -/
def noRepeat (fs : List String) : Prop := List.Chain' (· ≠ ·) fs

/-- The built-filter history ends in its first repetition: the final filter
equals its predecessor and no earlier consecutive pair was equal. -/
def endsRepeated (fs : List String) : Prop :=
  ∃ x ys, fs = ys ++ [x, x] ∧ List.Chain' (· ≠ ·) (ys ++ [x])

/-- A historical source with no entries. -/
def eSrc : Oracle := fun _ _ => ([], none)

/-- A tail source that immediately signals end of stream. -/
def eofTail : TailEnv := ⟨none, none, fun _ => .eof⟩

/-- A tail source delivering one chunk with one entry, then end of stream. -/
def oneTail : TailEnv := ⟨none, none, fun k => if k = 0 then .entries [eJson] else .eof⟩

/-- Quiet world: empty sources, stop never set, channel open. -/
def wEmpty : World := ⟨eSrc, eofTail, fun _ => false, fun _ => false⟩

/-- World after `Close`: the stop flag is set throughout (and one tail entry
arrives); the channel is still open. -/
def wStopTail : World := ⟨eSrc, oneTail, fun _ => true, fun _ => false⟩

/-- World after `Close` where the channel has also been closed. -/
def wClosed : World := ⟨eSrc, oneTail, fun _ => false, fun _ => true⟩

/-- A reader resolved to a historical start (freshness = epoch watermark). -/
def stHist : GCPStream := MakeGCPReader "p" "" (rfc3339 0)

/-- A reader resolved to the tail sentinel. -/
def stTail : GCPStream := MakeGCPReader "p" "" "tail"


/-! ## Theorems -/

theorem mget_append (a b : List (String × J)) (k : String) :
    mget (a ++ b) k = ((mget a k).orElse (fun _ => mget b k)) := by
  induction a with
  | nil => simp [mget]
  | cons p l ih =>
    by_cases h : p.1 = k
    · simp [mget, h]
    · simp [mget, h, ih]

theorem mget_mdel_eq (m : List (String × J)) (k : String) :
    mget (mdel m k) k = none := by
  induction m with
  | nil => rfl
  | cons p l ih =>
    by_cases h : p.1 = k
    · simp [mdel, h, ih]
    · simp [mdel, mget, h, ih]

theorem mget_mdel_ne (m : List (String × J)) (k k' : String)
    (h : k ≠ k') : mget (mdel m k) k' = mget m k' := by
  induction m with
  | nil => rfl
  | cons p l ih =>
    by_cases hp : p.1 = k
    · have hpk : p.1 ≠ k' := by
        rw [hp]
        exact h
      simp [mdel, mget, hp, hpk, ih, h]
    · by_cases hp' : p.1 = k'
      · have hk : k' ≠ k := by
          intro hc
          exact hp (by rw [hp', hc])
        simp [mdel, mget, hp, hp', hk]
      · simp [mdel, mget, hp, hp', ih]

theorem mget_mset_eq (m : List (String × J)) (k : String) (v : J) :
    mget (mset m k v) k = some v := by
  rw [mset, mget_append, mget_mdel_eq]
  simp [mget]

theorem mget_mset_ne (m : List (String × J)) (k k' : String) (v : J)
    (h : k ≠ k') : mget (mset m k v) k' = mget m k' := by
  rw [mset, mget_append, mget_mdel_ne m k k' h]
  cases hm : mget m k' with
  | some v' => rfl
  | none => simp [mget, h]



theorem mget_marshal_Payload (e : LogEntry) :
    mget (marshalEntry e) "Payload" = some (marshalPayload e.payload) := by
  rcases e with ⟨ln, ts, rts, sev, p⟩
  unfold marshalEntry
  cases ts <;> cases rts <;> split_ifs <;> rfl

theorem mget_marshal_jsonPayload (e : LogEntry) :
    mget (marshalEntry e) "jsonPayload" = none := by
  rcases e with ⟨ln, ts, rts, sev, p⟩
  unfold marshalEntry
  cases ts <;> cases rts <;> split_ifs <;> rfl

theorem mget_marshal_textPayload (e : LogEntry) :
    mget (marshalEntry e) "textPayload" = none := by
  rcases e with ⟨ln, ts, rts, sev, p⟩
  unfold marshalEntry
  cases ts <;> cases rts <;> split_ifs <;> rfl

theorem mget_m2_Payload (e : LogEntry) :
    mget (mset (mset (marshalEntry e) "severity" (J.str (sevName e.severity)))
      "timestamp" (J.str (rfc3339 (getTimestamp e)))) "Payload" =
      some (marshalPayload e.payload) := by
  rw [mget_mset_ne _ _ _ _ (by decide), mget_mset_ne _ _ _ _ (by decide),
    mget_marshal_Payload]

theorem massageMap_eq (e : LogEntry) :
    massageMap e = some (massageRecord e, rfc3339 (getTimestamp e)) := by
  have hP := mget_m2_Payload e
  unfold massageMap massageRecord
  rcases hp : e.payload with fs | s | v | _
  · rw [hp] at hP
    simp [isJsonPayload, hp, hP, asObj, mget, marshalPayload]
  · rw [hp] at hP
    by_cases hs : 0 < s.length
    · simp [isJsonPayload, getTextPayload, hp, hs, hP, asObj, mget, marshalPayload]
    · simp [isJsonPayload, getTextPayload, hp, hs, hP]
  · simp [isJsonPayload, getTextPayload, hp]
  · simp [isJsonPayload, getTextPayload, hp]

/-- C10: `CheckAuth` always returns a nil error, for every outcome of the
access probe and of the interactive credential-acquisition flow; probe
failures are handled inside the call (interactive flow, Fatal process
termination on delegated-login failure, or panic on display failure) and
are never surfaced as a returned error value. -/
theorem c10_checkAuth_returns_nil (env : AuthEnv) :
    retError (CheckAuth env) = none := by
  rcases env with ⟨ce, pe, g, ge, ae⟩
  cases ce <;> cases pe <;> cases g <;> cases ge <;> cases ae <;> rfl

/-- C4: entry normalization is total: for every input entry, including ones
with missing or unset fields, `massageEntryLog` returns a record without
failing (no panic, no aborted entry). -/
theorem c4_massage_total (e : LogEntry) :
    (massageEntryLog e).isSome = true := by
  unfold massageEntryLog
  rw [massageMap_eq]
  rfl

theorem mget_record_json (e : LogEntry) :
    mget (massageRecord e) "jsonPayload" =
      match e.payload with
      | .jsonP fs => some (J.obj [("fields", J.obj fs)])
      | _ => none := by
  unfold massageRecord
  rcases hp : e.payload with fs | s | v | _ <;> simp only [hp]
  · rw [mget_mdel_ne _ _ _ (by decide), mget_mdel_ne _ _ _ (by decide), mget_mset_eq]
  · by_cases hs : 0 < s.length <;> simp only [hs, if_true, if_false, ite_true, ite_false]
    · rw [mget_mdel_ne _ _ _ (by decide), mget_mdel_ne _ _ _ (by decide),
        mget_mset_ne _ _ _ _ (by decide), mget_mset_ne _ _ _ _ (by decide),
        mget_mset_ne _ _ _ _ (by decide), mget_marshal_jsonPayload]
    · rw [mget_mdel_ne _ _ _ (by decide), mget_mdel_ne _ _ _ (by decide),
        mget_mset_ne _ _ _ _ (by decide), mget_mset_ne _ _ _ _ (by decide),
        mget_marshal_jsonPayload]
  · rw [mget_mdel_ne _ _ _ (by decide), mget_mdel_ne _ _ _ (by decide),
      mget_mset_ne _ _ _ _ (by decide), mget_mset_ne _ _ _ _ (by decide),
      mget_marshal_jsonPayload]
  · rw [mget_mdel_ne _ _ _ (by decide), mget_mdel_ne _ _ _ (by decide),
      mget_mset_ne _ _ _ _ (by decide), mget_mset_ne _ _ _ _ (by decide),
      mget_marshal_jsonPayload]

theorem mget_record_text (e : LogEntry) :
    mget (massageRecord e) "textPayload" =
      match e.payload with
      | .textP s => if 0 < s.length then some (J.str s) else none
      | _ => none := by
  unfold massageRecord
  rcases hp : e.payload with fs | s | v | _ <;> simp only [hp]
  · rw [mget_mdel_ne _ _ _ (by decide), mget_mdel_ne _ _ _ (by decide),
      mget_mset_ne _ _ _ _ (by decide), mget_mset_ne _ _ _ _ (by decide),
      mget_mset_ne _ _ _ _ (by decide), mget_marshal_textPayload]
  · by_cases hs : 0 < s.length <;> simp only [hs, if_true, if_false, ite_true, ite_false]
    · rw [mget_mdel_ne _ _ _ (by decide), mget_mdel_ne _ _ _ (by decide), mget_mset_eq]
    · rw [mget_mdel_ne _ _ _ (by decide), mget_mdel_ne _ _ _ (by decide),
        mget_mset_ne _ _ _ _ (by decide), mget_mset_ne _ _ _ _ (by decide),
        mget_marshal_textPayload]
  · rw [mget_mdel_ne _ _ _ (by decide), mget_mdel_ne _ _ _ (by decide),
      mget_mset_ne _ _ _ _ (by decide), mget_mset_ne _ _ _ _ (by decide),
      mget_marshal_textPayload]
  · rw [mget_mdel_ne _ _ _ (by decide), mget_mdel_ne _ _ _ (by decide),
      mget_mset_ne _ _ _ _ (by decide), mget_mset_ne _ _ _ _ (by decide),
      mget_marshal_textPayload]

theorem mget_record_severity (e : LogEntry) :
    mget (massageRecord e) "severity" = some (J.str (sevName e.severity)) := by
  unfold massageRecord
  rcases hp : e.payload with fs | s | v | _ <;> simp only [hp]
  · rw [mget_mdel_ne _ _ _ (by decide), mget_mdel_ne _ _ _ (by decide),
      mget_mset_ne _ _ _ _ (by decide), mget_mset_ne _ _ _ _ (by decide), mget_mset_eq]
  · by_cases hs : 0 < s.length <;> simp only [hs, if_true, if_false, ite_true, ite_false] <;>
      rw [mget_mdel_ne _ _ _ (by decide), mget_mdel_ne _ _ _ (by decide)]
    · rw [mget_mset_ne _ _ _ _ (by decide), mget_mset_ne _ _ _ _ (by decide), mget_mset_eq]
    · rw [mget_mset_ne _ _ _ _ (by decide), mget_mset_eq]
  · rw [mget_mdel_ne _ _ _ (by decide), mget_mdel_ne _ _ _ (by decide),
      mget_mset_ne _ _ _ _ (by decide), mget_mset_eq]
  · rw [mget_mdel_ne _ _ _ (by decide), mget_mdel_ne _ _ _ (by decide),
      mget_mset_ne _ _ _ _ (by decide), mget_mset_eq]

theorem mget_record_timestamp (e : LogEntry) :
    mget (massageRecord e) "timestamp" = some (J.str (rfc3339 (getTimestamp e))) := by
  unfold massageRecord
  rcases hp : e.payload with fs | s | v | _ <;> simp only [hp]
  · rw [mget_mdel_ne _ _ _ (by decide), mget_mdel_ne _ _ _ (by decide),
      mget_mset_ne _ _ _ _ (by decide), mget_mset_eq]
  · by_cases hs : 0 < s.length <;> simp only [hs, if_true, if_false, ite_true, ite_false] <;>
      rw [mget_mdel_ne _ _ _ (by decide), mget_mdel_ne _ _ _ (by decide)]
    · rw [mget_mset_ne _ _ _ _ (by decide), mget_mset_eq]
    · rw [mget_mset_eq]
  · rw [mget_mdel_ne _ _ _ (by decide), mget_mdel_ne _ _ _ (by decide), mget_mset_eq]
  · rw [mget_mdel_ne _ _ _ (by decide), mget_mdel_ne _ _ _ (by decide), mget_mset_eq]

theorem mget_record_Payload (e : LogEntry) :
    mget (massageRecord e) "Payload" = none := by
  unfold massageRecord
  rw [mget_mdel_ne _ _ _ (by decide), mget_mdel_eq]

theorem mget_record_receive (e : LogEntry) :
    mget (massageRecord e) "receive_timestamp" = none := by
  unfold massageRecord
  rw [mget_mdel_eq]

/-- C3 counterexample: an entry whose payload is free text, namely the empty
string, yields a normalized record that carries neither `jsonPayload` nor
`textPayload`, refuting both that exactly one of the two keys is always
present and that a free-text entry always carries `textPayload`. -/
theorem c3_counterexample :
    (massageMap eTextEmpty).isSome = true ∧
    (massageMap eTextEmpty).map
      (fun p => (mget p.1 "jsonPayload", mget p.1 "textPayload")) =
      some (none, none) := by
  constructor <;> rfl

/-- C3 (amended): a structured-payload entry yields a record with
`jsonPayload` and never `textPayload`; a nonempty free-text entry yields the
inverse; no record carries both; an entry whose payload is neither
structured nor nonempty free text (protobuf payload, unset payload, or the
empty text payload) yields a record with neither key. -/
theorem c3_payload_keys (e : LogEntry) (m : List (String × J)) (t : String)
    (h : massageMap e = some (m, t)) :
    (isJsonPayload e = true →
      (mget m "jsonPayload").isSome = true ∧ mget m "textPayload" = none) ∧
    (∀ s, e.payload = .textP s → s ≠ "" →
      (mget m "textPayload").isSome = true ∧ mget m "jsonPayload" = none) ∧
    ¬((mget m "jsonPayload").isSome = true ∧ (mget m "textPayload").isSome = true) ∧
    (isJsonPayload e = false → getTextPayload e = "" →
      mget m "jsonPayload" = none ∧ mget m "textPayload" = none) := by
  rw [massageMap_eq] at h
  simp only [Option.some.injEq, Prod.mk.injEq] at h
  obtain ⟨hm, ht⟩ := h
  subst hm
  have hj := mget_record_json e
  have hx := mget_record_text e
  refine ⟨?_, ?_, ?_, ?_⟩
  · intro hc
    rcases hp : e.payload with fs | s | v | _ <;> rw [hp] at hj hx <;> simp only at hj hx
    · exact ⟨by rw [hj]; rfl, hx⟩
    all_goals simp [isJsonPayload, hp] at hc
  · intro s hs hne
    rw [hs] at hj hx
    simp only at hj hx
    have hlen : 0 < s.length := by
      cases s with
      | mk d =>
        cases d with
        | nil => exact absurd (by decide) hne
        | cons c cs => simp [String.length]
    rw [if_pos hlen] at hx
    exact ⟨by rw [hx]; rfl, hj⟩
  · intro hc
    rcases hp : e.payload with fs | s | v | _ <;> rw [hp] at hj hx <;> simp only at hj hx
    · rw [hx] at hc
      simp at hc
    · by_cases hlen : 0 < s.length
      · rw [if_pos hlen] at hx
        rw [hj] at hc
        simp at hc
      · rw [if_neg hlen] at hx
        rw [hx] at hc
        simp at hc
    · rw [hj] at hc
      simp at hc
    · rw [hj] at hc
      simp at hc
  · intro hcj hct
    rcases hp : e.payload with fs | s | v | _ <;> rw [hp] at hj hx <;> simp only at hj hx
    · simp [isJsonPayload, hp] at hcj
    · simp only [getTextPayload, hp] at hct
      subst hct
      rw [if_neg (by decide)] at hx
      exact ⟨hj, hx⟩
    · exact ⟨hj, hx⟩
    · exact ⟨hj, hx⟩

/-- C3 witness: the amended claim evaluated on a concrete structured-payload
entry. -/
theorem c3_witness :
    (mget (massageRecord eJson) "jsonPayload").isSome = true ∧
    mget (massageRecord eJson) "textPayload" = none :=
  (c3_payload_keys eJson (massageRecord eJson) (rfc3339 (getTimestamp eJson))
    (by rfl)).1 (by rfl)

/-- C7: every normalized record placed on the channel is the serialization of
a JSON object that carries `severity` (the enum name) and `timestamp`
(local-time RFC3339), with the nested payload wrapper and the receive-side
bookkeeping field removed; the returned watermark equals the rendered
timestamp. -/
theorem c7_record_fields (e : LogEntry) (m : List (String × J)) (t : String)
    (h : massageMap e = some (m, t)) :
    mget m "severity" = some (J.str (sevName e.severity)) ∧
    mget m "timestamp" = some (J.str (rfc3339 (getTimestamp e))) ∧
    mget m "Payload" = none ∧
    mget m "receive_timestamp" = none ∧
    t = rfc3339 (getTimestamp e) ∧
    massageEntryLog e = some (serializeJ (J.obj m), t) := by
  rw [massageMap_eq] at h
  simp only [Option.some.injEq, Prod.mk.injEq] at h
  obtain ⟨hm, ht⟩ := h
  subst hm
  subst ht
  refine ⟨mget_record_severity e, mget_record_timestamp e, mget_record_Payload e,
    mget_record_receive e, rfl, ?_⟩
  unfold massageEntryLog
  rw [massageMap_eq]
  rfl

/-- C7 witness: the record fields evaluated on a concrete entry. -/
theorem c7_witness :
    mget (massageRecord eJson) "severity" = some (J.str "INFO") ∧
    mget (massageRecord eJson) "timestamp" = some (J.str "1970-01-01T00:01:40Z") := by
  have h := c7_record_fields eJson (massageRecord eJson)
    (rfc3339 (getTimestamp eJson)) (by rfl)
  exact ⟨by rw [h.1]; rfl, by rw [h.2.1]; rfl⟩

theorem strExt (a b : String) (h : a.data = b.data) : a = b := by
  cases a
  cases b
  exact congrArg String.mk h

theorem dval_digCh (n : Nat) : dval (digCh n) = n % 10 := by
  unfold digCh dval
  have h : n % 10 < 10 := Nat.mod_lt _ (by omega)
  revert h
  generalize n % 10 = r
  intro h
  interval_cases r <;> rfl

theorem isDigit_digCh (n : Nat) : (digCh n).isDigit = true := by
  unfold digCh
  have h : n % 10 < 10 := Nat.mod_lt _ (by omega)
  revert h
  generalize n % 10 = r
  intro h
  interval_cases r <;> rfl

theorem isSpaceC_digCh (n : Nat) : isSpaceC (digCh n) = false := by
  unfold digCh
  have h : n % 10 < 10 := Nat.mod_lt _ (by omega)
  revert h
  generalize n % 10 = r
  intro h
  interval_cases r <;> rfl

theorem dropWhile_no_space (l : List Char) (h : ∀ c ∈ l, isSpaceC c = false) :
    l.dropWhile isSpaceC = l := by
  cases l with
  | nil => rfl
  | cons c cs =>
    rw [List.dropWhile_cons]
    simp [h c (List.mem_cons_self c cs)]

theorem trimSpace_no_space (s : String) (h : ∀ c ∈ s.data, isSpaceC c = false) :
    trimSpace s = s := by
  have h1 : s.data.dropWhile isSpaceC = s.data := dropWhile_no_space _ h
  have h2 : s.data.reverse.dropWhile isSpaceC = s.data.reverse :=
    dropWhile_no_space _ (fun c hc => h c (List.mem_reverse.mp hc))
  unfold trimSpace
  rw [h1, h2, List.reverse_reverse]

theorem fmtDT_data (dt : DateTime) : (fmtDT dt).data =
    [digCh (dt.y / 1000), digCh (dt.y / 100), digCh (dt.y / 10), digCh dt.y, '-',
     digCh (dt.mo / 10), digCh dt.mo, '-', digCh (dt.d / 10), digCh dt.d, 'T',
     digCh (dt.h / 10), digCh dt.h, ':', digCh (dt.mi / 10), digCh dt.mi, ':',
     digCh (dt.s / 10), digCh dt.s] := rfl

theorem trimSpace_fmtDT (dt : DateTime) : trimSpace (fmtDT dt) = fmtDT dt := by
  apply trimSpace_no_space
  intro c hc
  rw [fmtDT_data] at hc
  simp only [List.mem_cons, List.not_mem_nil, or_false] at hc
  rcases hc with rfl|rfl|rfl|rfl|rfl|rfl|rfl|rfl|rfl|rfl|rfl|rfl|rfl|rfl|rfl|rfl|rfl|rfl|rfl <;>
    first | exact isSpaceC_digCh _ | rfl

theorem matchF_fmtDT (dt : DateTime) : matchF (fmtDT dt).data = false := by
  rw [fmtDT_data]
  simp [matchF, List.dropLast, isDigit_digCh, show ('-').isDigit = false from rfl]

theorem fmtDT_ne_tail (dt : DateTime) : ¬((fmtDT dt).data = "tail".data) := by
  intro h
  have hl := congrArg List.length h
  rw [fmtDT_data] at hl
  simp at hl

theorem parseDT_fmtDT (dt : DateTime) (hy : dt.y < 10000) (hmo : dt.mo < 100)
    (hd : dt.d < 100) (hh : dt.h < 100) (hmi : dt.mi < 100) (hs : dt.s < 100) :
    parseDT (fmtDT dt).data = some dt := by
  rw [fmtDT_data]
  simp only [parseDT]
  rw [if_pos]
  · rcases dt with ⟨y, mo, d, h, mi, s⟩
    dsimp only at hy hmo hd hh hmi hs ⊢
    simp only [Option.some.injEq, DateTime.mk.injEq, dval_digCh]
    refine ⟨?_, ?_, ?_, ?_, ?_, ?_⟩ <;> omega
  · simp [isDigit_digCh]

theorem ParseFrom_tail (now : Nat) (s : String)
    (h : (trimSpace s).data = "tail".data) : ParseFrom now s = .ok "tail" := by
  simp [ParseFrom, h]

theorem ParseFrom_rel (now : Nat) (s : String)
    (h1 : ¬((trimSpace s).data = "tail".data))
    (h2 : matchF (trimSpace s).data = true) :
    ParseFrom now s = .ok (rfc3339 (now - relSecs (trimSpace s).data)) := by
  simp [ParseFrom, h1, h2]

theorem ParseFrom_abs (now : Nat) (s : String) (dt : DateTime)
    (h1 : ¬((trimSpace s).data = "tail".data))
    (h2 : matchF (trimSpace s).data = false)
    (hg : goTimeParse (trimSpace s).data = some dt) :
    ParseFrom now s = .ok (fmtDT dt ++ "Z") := by
  have hmD : matchD (trimSpace s).data = true := by
    unfold goTimeParse at hg
    cases hq : parseDT (trimSpace s).data with
    | none =>
      rw [hq] at hg
      cases hg
    | some d => simp [matchD, hq]
  simp [ParseFrom, h1, h2, hmD, hg]

theorem ParseFrom_badFormat (now : Nat) (s : String)
    (h1 : ¬((trimSpace s).data = "tail".data))
    (h2 : matchF (trimSpace s).data = false)
    (h3 : matchD (trimSpace s).data = true)
    (hg : goTimeParse (trimSpace s).data = none) :
    ParseFrom now s = .error "Invalid parameter for 'from' flag - bad format: " := by
  simp [ParseFrom, h1, h2, h3, hg]

theorem ParseFrom_badFlag (now : Nat) (s : String)
    (h1 : ¬((trimSpace s).data = "tail".data))
    (h2 : matchF (trimSpace s).data = false)
    (h3 : matchD (trimSpace s).data = false) :
    ParseFrom now s = .error "Invalid parameter for 'from' flag." := by
  simp [ParseFrom, h1, h2, h3]

/-- C8: for every input string of the form YYYY-MM-DDTHH:MM:SS (a valid
civil timestamp, no timezone suffix), `ParseFrom` returns exactly that
instant parsed and reformatted as an RFC3339 timestamp. -/
theorem c8_parseFrom_absolute (now : Nat) (dt : DateTime)
    (hy : dt.y < 10000) (hv : validDT dt = true) :
    ParseFrom now (fmtDT dt) = .ok (fmtDT dt ++ "Z") := by
  have hb : dt.mo < 100 ∧ dt.d < 100 ∧ dt.h < 100 ∧ dt.mi < 100 ∧ dt.s < 100 := by
    simp only [validDT, Bool.and_eq_true, decide_eq_true_eq] at hv
    have hdim : daysInMonth dt.y dt.mo ≤ 31 := by
      unfold daysInMonth
      split_ifs <;> omega
    omega
  have h1 : ¬((trimSpace (fmtDT dt)).data = "tail".data) := by
    rw [trimSpace_fmtDT]
    exact fmtDT_ne_tail dt
  have h2 : matchF (trimSpace (fmtDT dt)).data = false := by
    rw [trimSpace_fmtDT]
    exact matchF_fmtDT dt
  have hg : goTimeParse (trimSpace (fmtDT dt)).data = some dt := by
    rw [trimSpace_fmtDT]
    unfold goTimeParse
    rw [parseDT_fmtDT dt hy hb.1 hb.2.1 hb.2.2.1 hb.2.2.2.1 hb.2.2.2.2]
    simp [hv]
  exact ParseFrom_abs now (fmtDT dt) dt h1 h2 hg

/-- C8 witness: the absolute-timestamp round trip on a concrete input. -/
theorem c8_witness :
    ParseFrom 0 (fmtDT ⟨2024, 1, 2, 3, 4, 5⟩) = .ok (fmtDT ⟨2024, 1, 2, 3, 4, 5⟩ ++ "Z") :=
  c8_parseFrom_absolute 0 ⟨2024, 1, 2, 3, 4, 5⟩ (by decide) (by decide)

/-- C9 counterexample: the input " tail " (with surrounding whitespace) is
not the literal "tail", matches neither the relative-duration form nor the
absolute-timestamp form, yet `ParseFrom` accepts it (after trimming) instead
of signalling the fatal configuration error the claim requires. -/
theorem c9_counterexample :
    ParseFrom 0 " tail " = .ok "tail" ∧ (" tail " : String) ≠ "tail" ∧
    matchF (" tail ".data) = false ∧ goTimeParse (" tail ".data) = none :=
  ⟨rfl, by decide, rfl, rfl⟩

/-- C9 (amended): after trimming surrounding whitespace, `ParseFrom` signals
the fatal configuration error exactly for the inputs that are not the
literal tail sentinel, not of the relative-duration form, and not a valid
absolute timestamp; moreover the two Fatal sites are characterized exactly:
the bad-format Fatal fires iff the input matched the date shape but failed
`time.Parse` validation, and the bad-flag Fatal fires iff no form matched. -/
theorem c9_parseFrom_fatal_iff (now : Nat) (s : String) :
    ((∃ msg, ParseFrom now s = .error msg) ↔
      ¬(trimSpace s = "tail" ∨ matchF (trimSpace s).data = true ∨
        (goTimeParse (trimSpace s).data).isSome = true)) ∧
    (ParseFrom now s = .error "Invalid parameter for 'from' flag - bad format: " ↔
      (¬(trimSpace s = "tail") ∧ matchF (trimSpace s).data = false ∧
        matchD (trimSpace s).data = true ∧ goTimeParse (trimSpace s).data = none)) ∧
    (ParseFrom now s = .error "Invalid parameter for 'from' flag." ↔
      (¬(trimSpace s = "tail") ∧ matchF (trimSpace s).data = false ∧
        matchD (trimSpace s).data = false)) := by
  by_cases h1 : (trimSpace s).data = "tail".data
  · have hP := ParseFrom_tail now s h1
    have ht : trimSpace s = "tail" := strExt _ _ h1
    refine ⟨⟨?_, ?_⟩, ⟨?_, ?_⟩, ⟨?_, ?_⟩⟩
    · rintro ⟨msg, hmsg⟩
      rw [hP] at hmsg
      cases hmsg
    · intro hc
      exact absurd (Or.inl ht) hc
    · intro hc
      rw [hP] at hc
      cases hc
    · rintro ⟨hc, _⟩
      exact absurd ht hc
    · intro hc
      rw [hP] at hc
      cases hc
    · rintro ⟨hc, _⟩
      exact absurd ht hc
  · have hne : ¬(trimSpace s = "tail") := fun hc => h1 (by rw [hc])
    by_cases h2 : matchF (trimSpace s).data = true
    · have hP := ParseFrom_rel now s h1 h2
      refine ⟨⟨?_, ?_⟩, ⟨?_, ?_⟩, ⟨?_, ?_⟩⟩
      · rintro ⟨msg, hmsg⟩
        rw [hP] at hmsg
        cases hmsg
      · intro hc
        exact absurd (Or.inr (Or.inl h2)) hc
      · intro hc
        rw [hP] at hc
        cases hc
      · rintro ⟨_, hc, _⟩
        rw [h2] at hc
        cases hc
      · intro hc
        rw [hP] at hc
        cases hc
      · rintro ⟨_, hc, _⟩
        rw [h2] at hc
        cases hc
    · have h2f : matchF (trimSpace s).data = false := by
        cases hq : matchF (trimSpace s).data
        · rfl
        · exact absurd hq h2
      by_cases h4 : matchD (trimSpace s).data = true
      · cases hg : goTimeParse (trimSpace s).data with
        | some dtv =>
          have hP := ParseFrom_abs now s dtv h1 h2f hg
          refine ⟨⟨?_, ?_⟩, ⟨?_, ?_⟩, ⟨?_, ?_⟩⟩
          · rintro ⟨msg, hmsg⟩
            rw [hP] at hmsg
            cases hmsg
          · intro hc
            exact absurd (Or.inr (Or.inr rfl)) hc
          · intro hc
            rw [hP] at hc
            cases hc
          · rintro ⟨_, _, _, hc⟩
            cases hc
          · intro hc
            rw [hP] at hc
            cases hc
          · rintro ⟨_, _, hc⟩
            rw [h4] at hc
            cases hc
        | none =>
          have hP := ParseFrom_badFormat now s h1 h2f h4 hg
          refine ⟨⟨?_, ?_⟩, ⟨?_, ?_⟩, ⟨?_, ?_⟩⟩
          · intro _
            rintro (hA | hB | hC)
            · exact hne hA
            · rw [h2f] at hB
              cases hB
            · simp at hC
          · intro _
            exact ⟨_, hP⟩
          · intro _
            exact ⟨hne, h2f, h4, rfl⟩
          · intro _
            exact hP
          · intro hc
            rw [hP] at hc
            injection hc with hmsg
            exact absurd hmsg (by decide)
          · rintro ⟨_, _, hc⟩
            rw [h4] at hc
            cases hc
      · have h4f : matchD (trimSpace s).data = false := by
          cases hq : matchD (trimSpace s).data
          · rfl
          · exact absurd hq h4
        have hg : goTimeParse (trimSpace s).data = none := by
          unfold goTimeParse
          cases hq : parseDT (trimSpace s).data with
          | none => rfl
          | some d =>
            exact absurd (by unfold matchD; rw [hq]; rfl) h4
        have hP := ParseFrom_badFlag now s h1 h2f h4f
        refine ⟨⟨?_, ?_⟩, ⟨?_, ?_⟩, ⟨?_, ?_⟩⟩
        · intro _
          rintro (hA | hB | hC)
          · exact hne hA
          · rw [h2f] at hB
            cases hB
          · rw [hg] at hC
            simp at hC
        · intro _
          exact ⟨_, hP⟩
        · intro hc
          rw [hP] at hc
          injection hc with hmsg
          exact absurd hmsg (by decide)
        · rintro ⟨_, _, hc, _⟩
          rw [h4f] at hc
          cases hc
        · intro _
          exact ⟨hne, h2f, h4f⟩
        · intro _
          exact hP

theorem tailTrace_crash_unreported (prev : List (String × Nat)) (fs : List String)
    (r : TailRes) (h : (tailTrace prev fs r).crashed.isSome = true) :
    (tailTrace prev fs r).reported = none := by
  cases r <;> simp_all [tailTrace]

theorem runProducer_crash_unreported (st : GCPStream) (w : World) (fuel : Nat)
    (h : (runProducer st w fuel).crashed.isSome = true) :
    (runProducer st w fuel).reported = none := by
  unfold runProducer at h ⊢
  by_cases hT : st.isTail = true
  · rw [if_pos hT] at h ⊢
    exact tailTrace_crash_unreported _ _ _ h
  · rw [if_neg hT] at h ⊢
    cases hfr : streamFrom st w fuel
    all_goals rw [hfr] at h
    all_goals dsimp only at h ⊢
    all_goals try exact tailTrace_crash_unreported _ _ _ h
    all_goals simp_all

/-- C2 counterexample: with the output channel closed, a send inside the
asynchronous tail loop panics; the panic propagates out of the producer
goroutine uncaught (the deferred recover of `StreamInto` covers only the
spawning goroutine) and the error callback is never invoked — refuting the
claim that a producer-loop panic is caught and reported via the callback. -/
theorem c2_counterexample :
    (runProducer stTail wClosed 5).crashed = some "send on closed channel" ∧
    (runProducer stTail wClosed 5).reported = none ∧
    (StreamInto stTail ⟨none, none⟩ wClosed 5).2 = some (runProducer stTail wClosed 5) :=
  ⟨rfl, rfl, rfl⟩

/-- C2 (amended): `StreamInto` returns a synchronous error exactly for setup
failures (client construction error, or a panic in the synchronous part,
which its deferred recover converts into the returned error).  A transport
error from the producer — in tail mode or in the historical loop — is
reported once through the error callback.  A
panic inside the asynchronous producer goroutine, however, is not caught by
the recover boundary: it propagates uncaught and is never reported through
the callback. -/
theorem c2_fault_boundary (st : GCPStream) (se : SetupEnv) (w : World) (fuel : Nat) :
    ((StreamInto st se w fuel).1 = none ↔ se.clientPanic = none ∧ se.clientErr = none) ∧
    (∀ p, se.clientPanic = some p → StreamInto st se w fuel = (some p, none)) ∧
    (∀ tr, (StreamInto st se w fuel).2 = some tr → tr.crashed.isSome = true →
      tr.reported = none) ∧
    (∀ out sc e, st.isTail = true →
      streamTail w.tailEnv w.closed 0 fuel = .failed out sc e →
      (runProducer st w fuel).reported = some e) ∧
    (∀ out fs sc e, st.isTail = false →
      streamFrom st w fuel = .failed out fs sc e →
      (runProducer st w fuel).reported = some e) := by
  refine ⟨⟨?_, ?_⟩, ?_, ?_, ?_, ?_⟩
  · intro h
    unfold StreamInto at h
    cases hcp : se.clientPanic with
    | some p =>
      rw [hcp] at h
      cases h
    | none =>
      rw [hcp] at h
      cases hce : se.clientErr with
      | some e2 =>
        rw [hce] at h
        cases h
      | none => exact ⟨rfl, rfl⟩
  · rintro ⟨h1, h2⟩
    unfold StreamInto
    rw [h1, h2]
  · intro p hp
    unfold StreamInto
    rw [hp]
  · intro tr htr hcr
    unfold StreamInto at htr
    cases hcp : se.clientPanic with
    | some p =>
      rw [hcp] at htr
      cases htr
    | none =>
      rw [hcp] at htr
      cases hce : se.clientErr with
      | some e2 =>
        rw [hce] at htr
        cases htr
      | none =>
        rw [hce] at htr
        simp only [Option.some.injEq] at htr
        rw [← htr] at hcr ⊢
        exact runProducer_crash_unreported st w fuel hcr
  · intro out sc e hT htail
    unfold runProducer
    rw [if_pos hT, htail]
    rfl
  · intro out fs sc e hT hres
    have hT2 : ¬(st.isTail = true) := by
      rw [hT]
      simp
    unfold runProducer
    rw [if_neg hT2, hres]

/-- C2 witness: a panic during synchronous setup is recovered and returned
as the synchronous error of `StreamInto`. -/
theorem c2_witness :
    StreamInto stTail ⟨some "boom", none⟩ wEmpty 5 = (some "boom", none) :=
  (c2_fault_boundary stTail ⟨some "boom", none⟩ wEmpty 5).2.1 "boom" rfl

/-- C6 counterexample: in a world where `Close` has already set the stop
flag at every read (`wStopTail`), the producer still performs a send: the
historical loop exits on the stop flag, but the producer then enters the
tail loop, which never checks the stop flag and delivers an entry — so a
send occurs after `Close`, refuting the claim that the stop flag is checked
at each iteration of the tail loop and that no sends follow `Close`. -/
theorem c6_counterexample :
    (runProducer stHist wStopTail 5).out.length = 1 ∧
    (runProducer stHist wStopTail 5).tailEntries = 1 :=
  ⟨rfl, rfl⟩

/-- C6 (amended): the historical loop checks the stop flag at each iteration
and exits as soon as it is set, and the tail loop terminates on source
end-of-stream and on a receive error; but a stop-flag exit of the historical phase still falls
through into tail mode, whose receive loop never reads the stop flag, so
termination after `Close` is not guaranteed and sends may still occur. -/
theorem c6_stop_behavior :
    (∀ (uf : String) (src : Oracle) (stop closed : Nat → Bool) (fuel k : Nat)
      (lt lf : String) (acc : List (String × Nat)) (fs : List String) (sc : Nat),
      stop k = true →
      streamFromAux uf src stop closed (fuel + 1) k lt lf acc fs sc =
        .stopped acc.reverse fs.reverse sc lt) ∧
    (∀ (te : TailEnv) (closed : Nat → Bool) (fuel k : Nat)
      (acc : List (String × Nat)) (sc : Nat),
      te.chunks k = .eof →
      streamTailAux te closed (fuel + 1) k acc sc = .ok acc.reverse sc) ∧
    (∀ (te : TailEnv) (closed : Nat → Bool) (fuel k : Nat)
      (acc : List (String × Nat)) (sc : Nat) (e : String),
      te.chunks k = .recvErr e →
      streamTailAux te closed (fuel + 1) k acc sc = .failed acc.reverse sc e) ∧
    (∀ (st : GCPStream) (w : World) (fuel : Nat) (out : List (String × Nat))
      (fs : List String) (sc : Nat) (lt : String),
      st.isTail = false →
      streamFrom st w fuel = .stopped out fs sc lt →
      (runProducer st w fuel).tailEntries = 1) := by
  refine ⟨?_, ?_, ?_, ?_⟩
  · intro uf src stop closed fuel k lt lf acc fs sc h
    simp only [streamFromAux]
    rw [if_pos h]
  · intro te closed fuel k acc sc h
    simp only [streamTailAux]
    rw [h]
  · intro te closed fuel k acc sc e h
    simp only [streamTailAux]
    rw [h]
  · intro st w fuel out fs sc lt hT hres
    have hT' : ¬(st.isTail = true) := by
      rw [hT]
      simp
    unfold runProducer
    rw [if_neg hT', hres]
    dsimp only
    cases streamTail w.tailEnv w.closed sc fuel <;> rfl

/-- C6 witness: the historical loop observing the stop flag at a concrete
state exits immediately with no further output. -/
theorem c6_witness :
    streamFromAux "" eSrc (fun _ => true) (fun _ => false) 1 0 (rfc3339 0) "" [] [] 0 =
      .stopped [] [] 0 (rfc3339 0) :=
  c6_stop_behavior.1 "" eSrc (fun _ => true) (fun _ => false) 0 0 (rfc3339 0) "" [] [] 0 rfl

theorem tailTrace_tailEntries (prev : List (String × Nat)) (fs : List String) (r : TailRes) :
    (tailTrace prev fs r).tailEntries = 1 := by
  cases r <;> rfl

theorem tailTrace_histFilters (prev : List (String × Nat)) (fs : List String) (r : TailRes) :
    (tailTrace prev fs r).histFilters = fs := by
  cases r <;> rfl

theorem buildFilter_ne_empty (lt : String) : ¬(buildFilter lt = "") := by
  intro h
  unfold buildFilter at h
  have hl := congrArg String.length h
  rw [String.length_append, String.length_append] at hl
  have h13 : ("timestamp > \"" : String).length = 13 := rfl
  have h1 : ("\"" : String).length = 1 := rfl
  have h0 : ("" : String).length = 0 := rfl
  omega

theorem chain_ne_reverse (l : List String) :
    List.Chain' (· ≠ ·) l.reverse ↔ List.Chain' (· ≠ ·) l := by
  rw [List.chain'_reverse]
  constructor <;> exact fun h => h.imp (fun a b hab => Ne.symm hab)

theorem inv_noRepeat_rev (fs : List String) (lf : String)
    (hinv : (fs = [] ∧ lf = "") ∨ (fs.head? = some lf ∧ List.Chain' (· ≠ ·) fs)) :
    noRepeat fs.reverse := by
  rcases hinv with ⟨hfs, _⟩ | ⟨_, hch⟩
  · subst hfs
    simp [noRepeat]
  · exact (chain_ne_reverse fs).mpr hch

theorem inv_chain_cons (fs : List String) (lf lt : String)
    (hinv : (fs = [] ∧ lf = "") ∨ (fs.head? = some lf ∧ List.Chain' (· ≠ ·) fs))
    (hf : ¬(buildFilter lt = lf)) :
    List.Chain' (· ≠ ·) (buildFilter lt :: fs) := by
  rcases hinv with ⟨hfs, _⟩ | ⟨hhead, hch⟩
  · subst hfs
    exact List.chain'_singleton _
  · cases fs with
    | nil => cases hhead
    | cons a fs2 =>
      have ha : a = lf := by
        simpa using hhead
      subst ha
      exact List.chain'_cons.mpr ⟨hf, hch⟩

theorem streamFromAux_no_stop (uf : String) (src : Oracle) (stop closed : Nat → Bool)
    (hstop : ∀ k, stop k = false) :
    ∀ (fuel k : Nat) (lt lf : String) (acc : List (String × Nat)) (fs : List String)
      (sc : Nat) (out : List (String × Nat)) (fs' : List String) (sc' : Nat) (lt' : String),
      streamFromAux uf src stop closed fuel k lt lf acc fs sc ≠ .stopped out fs' sc' lt' := by
  intro fuel
  induction fuel with
  | zero =>
    intro k lt lf acc fs sc out fs' sc' lt' h
    simp [streamFromAux] at h
  | succ fuel ih =>
    intro k lt lf acc fs sc out fs' sc' lt' h
    simp only [streamFromAux, hstop k, Bool.false_eq_true, if_false, ite_false] at h
    by_cases hf : buildFilter lt = lf
    · rw [if_pos hf] at h
      cases h
    · rw [if_neg hf] at h
      cases hE1 : (emitEntries closed (src k (histQuery uf lt)).1 sc lt acc).1 with
      | some msg =>
        rw [hE1] at h
        simp at h
      | none =>
        rw [hE1] at h
        cases hE2 : (src k (histQuery uf lt)).2 with
        | some e =>
          rw [hE2] at h
          simp at h
        | none =>
          rw [hE2] at h
          try dsimp only at h
          exact ih _ _ _ _ _ _ _ _ _ _ h

theorem streamFromAux_filters (uf : String) (src : Oracle) (stop closed : Nat → Bool) :
    ∀ (fuel k : Nat) (lt lf : String) (acc : List (String × Nat)) (fs : List String) (sc : Nat),
    ((fs = [] ∧ lf = "") ∨ (fs.head? = some lf ∧ List.Chain' (· ≠ ·) fs)) →
    (resIsToTail (streamFromAux uf src stop closed fuel k lt lf acc fs sc) = true →
      endsRepeated (resFilters (streamFromAux uf src stop closed fuel k lt lf acc fs sc))) ∧
    (resIsToTail (streamFromAux uf src stop closed fuel k lt lf acc fs sc) = false →
      noRepeat (resFilters (streamFromAux uf src stop closed fuel k lt lf acc fs sc))) := by
  intro fuel
  induction fuel with
  | zero =>
    intro k lt lf acc fs sc hinv
    constructor
    · intro hc
      simp [streamFromAux, resIsToTail] at hc
    · intro _
      exact inv_noRepeat_rev fs lf hinv
  | succ fuel ih =>
    intro k lt lf acc fs sc hinv
    simp only [streamFromAux]
    by_cases hsk : stop k = true
    · rw [if_pos hsk]
      exact ⟨fun hc => by simp [resIsToTail] at hc,
        fun _ => inv_noRepeat_rev fs lf hinv⟩
    · rw [if_neg hsk]
      by_cases hf : buildFilter lt = lf
      · rw [if_pos hf]
        constructor
        · intro _
          dsimp only [resFilters]
          rcases hinv with ⟨hfs, hlf⟩ | ⟨hhead, hch⟩
          · rw [hlf] at hf
            exact absurd hf (buildFilter_ne_empty lt)
          · cases fs with
            | nil => cases hhead
            | cons a fs2 =>
              have ha : a = lf := by
                simpa using hhead
              subst ha
              subst hf
              refine ⟨buildFilter lt, fs2.reverse, ?_, ?_⟩
              · simp [List.reverse_cons, List.append_assoc]
              · have : fs2.reverse ++ [buildFilter lt] = (buildFilter lt :: fs2).reverse := by
                  simp [List.reverse_cons]
                rw [this]
                exact (chain_ne_reverse _).mpr hch
        · intro hc
          simp [resIsToTail] at hc
      · rw [if_neg hf]
        have hchain : List.Chain' (· ≠ ·) (buildFilter lt :: fs) :=
          inv_chain_cons fs lf lt hinv hf
        cases hE1 : (emitEntries closed (src k (histQuery uf lt)).1 sc lt acc).1 with
        | some msg =>
          refine ⟨fun hc => ?_, fun _ => ?_⟩
          · simp [resIsToTail] at hc
          · simpa [resFilters, noRepeat] using (chain_ne_reverse _).mpr hchain
        | none =>
          cases hE2 : (src k (histQuery uf lt)).2 with
          | some e =>
            refine ⟨fun hc => ?_, fun _ => ?_⟩
            · simp [resIsToTail] at hc
            · simpa [resFilters, noRepeat] using (chain_ne_reverse _).mpr hchain
          | none =>
            exact ih (k + 1) _ (buildFilter lt) _ (buildFilter lt :: fs) _
              (Or.inr ⟨rfl, hchain⟩)

theorem runProducer_eq_toTail (st : GCPStream) (w : World) (fuel : Nat)
    (hT : ¬(st.isTail = true)) (out : List (String × Nat)) (fs : List String)
    (sc : Nat) (lt : String) (hres : streamFrom st w fuel = .toTail out fs sc lt) :
    runProducer st w fuel = tailTrace out fs (streamTail w.tailEnv w.closed sc fuel) := by
  unfold runProducer
  rw [if_neg hT, hres]

theorem runProducer_eq_failed (st : GCPStream) (w : World) (fuel : Nat)
    (hT : ¬(st.isTail = true)) (out : List (String × Nat)) (fs : List String)
    (sc : Nat) (e : String) (hres : streamFrom st w fuel = .failed out fs sc e) :
    runProducer st w fuel = ⟨out, 0, fs, some e, none, true⟩ := by
  unfold runProducer
  rw [if_neg hT, hres]

theorem runProducer_eq_panicked (st : GCPStream) (w : World) (fuel : Nat)
    (hT : ¬(st.isTail = true)) (out : List (String × Nat)) (fs : List String)
    (sc : Nat) (m : String) (hres : streamFrom st w fuel = .panicked out fs sc m) :
    runProducer st w fuel = ⟨out, 0, fs, none, some m, true⟩ := by
  unfold runProducer
  rw [if_neg hT, hres]

theorem runProducer_eq_fuelOut (st : GCPStream) (w : World) (fuel : Nat)
    (hT : ¬(st.isTail = true)) (out : List (String × Nat)) (fs : List String)
    (sc : Nat) (hres : streamFrom st w fuel = .fuelOut out fs sc) :
    runProducer st w fuel = ⟨out, 0, fs, none, none, false⟩ := by
  unfold runProducer
  rw [if_neg hT, hres]

theorem runProducer_histFilters (st : GCPStream) (w : World) (fuel : Nat)
    (hT : ¬(st.isTail = true)) :
    (runProducer st w fuel).histFilters = resFilters (streamFrom st w fuel) := by
  unfold runProducer
  rw [if_neg hT]
  cases streamFrom st w fuel with
  | toTail out fs sc lt => exact tailTrace_histFilters _ _ _
  | stopped out fs sc lt => exact tailTrace_histFilters _ _ _
  | failed out fs sc e => rfl
  | panicked out fs sc m => rfl
  | fuelOut out fs sc => rfl

theorem runProducer_tailEntries_le (st : GCPStream) (w : World) (fuel : Nat) :
    (runProducer st w fuel).tailEntries ≤ 1 := by
  unfold runProducer
  by_cases hT : st.isTail = true
  · rw [if_pos hT, tailTrace_tailEntries]
  · rw [if_neg hT]
    cases streamFrom st w fuel with
    | toTail out fs sc lt => simp [tailTrace_tailEntries]
    | stopped out fs sc lt => simp [tailTrace_tailEntries]
    | failed out fs sc e => simp
    | panicked out fs sc m => simp
    | fuelOut out fs sc => simp

/-- C1: if the resolved time range is the tail sentinel the reader enters
tail mode directly with no historical iteration; otherwise (with `Close`
never called during the run) tail mode is entered at most once, it is
entered exactly when the built-filter history ends in its first repetition
(the repeated filter ends historical mode even though the preceding query
succeeded), and when tail mode is not entered no filter repetition occurred
and the run ended in an error, a panic, or fuel exhaustion. -/
theorem c1_historical_to_tail (p f fr : String) (w : World) (fuel : Nat)
    (hstop : ∀ k, w.stop k = false) :
    (runProducer (MakeGCPReader p f fr) w fuel).tailEntries ≤ 1 ∧
    (fr = "tail" →
      (runProducer (MakeGCPReader p f fr) w fuel).histFilters = [] ∧
      (runProducer (MakeGCPReader p f fr) w fuel).tailEntries = 1) ∧
    (fr ≠ "tail" →
      ((runProducer (MakeGCPReader p f fr) w fuel).tailEntries = 1 →
        endsRepeated (runProducer (MakeGCPReader p f fr) w fuel).histFilters) ∧
      ((runProducer (MakeGCPReader p f fr) w fuel).tailEntries = 0 →
        noRepeat (runProducer (MakeGCPReader p f fr) w fuel).histFilters ∧
        ((runProducer (MakeGCPReader p f fr) w fuel).reported.isSome = true ∨
         (runProducer (MakeGCPReader p f fr) w fuel).crashed.isSome = true ∨
         (runProducer (MakeGCPReader p f fr) w fuel).fuelOk = false))) := by
  refine ⟨runProducer_tailEntries_le _ _ _, ?_, ?_⟩
  · intro hfr
    subst hfr
    have hT : (MakeGCPReader p f "tail").isTail = true := rfl
    unfold runProducer
    rw [if_pos hT]
    exact ⟨tailTrace_histFilters _ _ _, tailTrace_tailEntries _ _ _⟩
  · intro hfr
    have hT : ¬((MakeGCPReader p f fr).isTail = true) := by
      simp [MakeGCPReader]
      exact hfr
    have hfl0 := streamFromAux_filters (MakeGCPReader p f fr).filter w.src w.stop w.closed
      fuel 0 (MakeGCPReader p f fr).freshness "" [] [] 0 (Or.inl ⟨rfl, rfl⟩)
    have hfl :
        (resIsToTail (streamFrom (MakeGCPReader p f fr) w fuel) = true →
          endsRepeated (resFilters (streamFrom (MakeGCPReader p f fr) w fuel))) ∧
        (resIsToTail (streamFrom (MakeGCPReader p f fr) w fuel) = false →
          noRepeat (resFilters (streamFrom (MakeGCPReader p f fr) w fuel))) := hfl0
    have hhist := runProducer_histFilters (MakeGCPReader p f fr) w fuel hT
    constructor
    · intro h1
      rw [hhist]
      apply hfl.1
      cases hres : streamFrom (MakeGCPReader p f fr) w fuel with
      | toTail out fs sc lt => rfl
      | stopped out fs sc lt =>
        exact absurd hres (streamFromAux_no_stop _ _ _ _ hstop _ _ _ _ _ _ _ _ _ _ _)
      | failed out fs sc e =>
        rw [runProducer_eq_failed _ _ _ hT _ _ _ _ hres] at h1
        simp at h1
      | panicked out fs sc m =>
        rw [runProducer_eq_panicked _ _ _ hT _ _ _ _ hres] at h1
        simp at h1
      | fuelOut out fs sc =>
        rw [runProducer_eq_fuelOut _ _ _ hT _ _ _ hres] at h1
        simp at h1
    · intro h0
      refine ⟨?_, ?_⟩
      · rw [hhist]
        apply hfl.2
        cases hres : streamFrom (MakeGCPReader p f fr) w fuel with
        | toTail out fs sc lt =>
          rw [runProducer_eq_toTail _ _ _ hT _ _ _ _ hres, tailTrace_tailEntries] at h0
          simp at h0
        | stopped out fs sc lt =>
          exact absurd hres (streamFromAux_no_stop _ _ _ _ hstop _ _ _ _ _ _ _ _ _ _ _)
        | failed out fs sc e => rfl
        | panicked out fs sc m => rfl
        | fuelOut out fs sc => rfl
      · cases hres : streamFrom (MakeGCPReader p f fr) w fuel with
        | toTail out fs sc lt =>
          rw [runProducer_eq_toTail _ _ _ hT _ _ _ _ hres, tailTrace_tailEntries] at h0
          simp at h0
        | stopped out fs sc lt =>
          exact absurd hres (streamFromAux_no_stop _ _ _ _ hstop _ _ _ _ _ _ _ _ _ _ _)
        | failed out fs sc e =>
          rw [runProducer_eq_failed _ _ _ hT _ _ _ _ hres]
          exact Or.inl rfl
        | panicked out fs sc m =>
          rw [runProducer_eq_panicked _ _ _ hT _ _ _ _ hres]
          exact Or.inr (Or.inl rfl)
        | fuelOut out fs sc =>
          rw [runProducer_eq_fuelOut _ _ _ hT _ _ _ hres]
          exact Or.inr (Or.inr rfl)

/-- C1 witness: a concrete historical session over an empty source enters
tail mode once, with the built-filter history ending in its first
repetition. -/
theorem c1_witness :
    (runProducer stHist wEmpty 5).tailEntries = 1 ∧
    endsRepeated (runProducer stHist wEmpty 5).histFilters :=
  ⟨rfl, ((c1_historical_to_tail "p" "" (rfc3339 0) wEmpty 5 (fun _ => rfl)).2.2
    (by decide)).1 rfl⟩

theorem massageEntryLog_eq (e : LogEntry) :
    massageEntryLog e =
      some (serializeJ (J.obj (massageRecord e)), rfc3339 (getTimestamp e)) := by
  unfold massageEntryLog
  rw [massageMap_eq]
  rfl

theorem chain_ge_rev (l : List Nat) (t0 : Nat)
    (h : List.Chain' (fun a b => b ≤ a) (l ++ [t0])) :
    List.Chain' (· ≤ ·) (t0 :: l.reverse) := by
  have h2 : List.Chain' (· ≤ ·) ((l ++ [t0]).reverse) := by
    rw [List.chain'_reverse]
    exact h.imp (fun a b hab => hab)
  simpa using h2

theorem chain_exit (acc : List (String × Nat)) (t0 : Nat)
    (hch : List.Chain' (fun a b => b ≤ a) (acc.map Prod.snd ++ [t0])) :
    List.Chain' (· ≤ ·) (t0 :: (acc.reverse.map Prod.snd)) := by
  have h2 := chain_ge_rev (acc.map Prod.snd) t0 hch
  simpa [List.map_reverse] using h2

theorem emitEntries_mono (closed : Nat → Bool) :
    ∀ (es : List LogEntry) (sc wv : Nat) (acc : List (String × Nat)) (t0 : Nat)
      (pan : Option String) (acc2 : List (String × Nat)) (sc2 : Nat) (lt2 : String),
    emitEntries closed es sc (rfc3339 wv) acc = (pan, acc2, sc2, lt2) →
    (acc.map Prod.snd).headD t0 = wv →
    List.Chain' (fun a b => b ≤ a) (acc.map Prod.snd ++ [t0]) →
    List.Pairwise (· ≤ ·) (es.map getTimestamp) →
    (∀ e ∈ es, wv ≤ getTimestamp e) →
    ∃ wv2, (acc2.map Prod.snd).headD t0 = wv2 ∧ lt2 = rfc3339 wv2 ∧
      List.Chain' (fun a b => b ≤ a) (acc2.map Prod.snd ++ [t0]) := by
  intro es
  induction es with
  | nil =>
    intro sc wv acc t0 pan acc2 sc2 lt2 hE hhd hch _ _
    simp only [emitEntries, Prod.mk.injEq] at hE
    obtain ⟨_, ha, _, hl⟩ := hE
    refine ⟨wv, ?_, ?_, ?_⟩
    · rw [← ha]
      exact hhd
    · rw [← hl]
    · rw [← ha]
      exact hch
  | cons e es ih =>
    intro sc wv acc t0 pan acc2 sc2 lt2 hE hhd hch hsort hub
    simp only [emitEntries] at hE
    rw [massageEntryLog_eq e] at hE
    dsimp only at hE
    by_cases hc : closed sc = true
    · rw [if_pos hc] at hE
      simp only [Prod.mk.injEq] at hE
      obtain ⟨_, ha, _, hl⟩ := hE
      refine ⟨wv, ?_, ?_, ?_⟩
      · rw [← ha]
        exact hhd
      · rw [← hl]
      · rw [← ha]
        exact hch
    · rw [if_neg hc] at hE
      simp only [List.map_cons] at hsort
      apply ih (sc + 1) (getTimestamp e)
        ((serializeJ (J.obj (massageRecord e)), getTimestamp e) :: acc) t0 pan acc2 sc2 lt2 hE
      · simp
      · rw [List.map_cons, List.cons_append]
        apply List.chain'_cons'.mpr
        constructor
        · intro y hy
          have hwv : (acc.map Prod.snd ++ [t0]).head? = some wv := by
            cases hacc : acc.map Prod.snd with
            | nil =>
              rw [hacc] at hhd
              simp at hhd
              simp [hhd]
            | cons a l =>
              rw [hacc] at hhd
              simp at hhd
              simp [hhd]
          rw [hwv] at hy
          simp at hy
          subst hy
          exact hub e (List.mem_cons_self e es)
        · exact hch
      · exact (List.pairwise_cons.mp hsort).2
      · intro e2 he2
        exact (List.pairwise_cons.mp hsort).1 (getTimestamp e2) (List.mem_map_of_mem _ he2)

theorem streamFromAux_mono (uf : String) (src : Oracle) (stop closed : Nat → Bool) (t0 : Nat)
    (hsorted : ∀ k q, List.Pairwise (· ≤ ·) (((src k q).1).map getTimestamp))
    (hhonest : ∀ k t e, e ∈ (src k (histQuery uf (rfc3339 t))).1 → t ≤ getTimestamp e) :
    ∀ (fuel k wv : Nat) (lf : String) (acc : List (String × Nat)) (fs : List String) (sc : Nat),
    (acc.map Prod.snd).headD t0 = wv →
    List.Chain' (fun a b => b ≤ a) (acc.map Prod.snd ++ [t0]) →
    List.Chain' (· ≤ ·)
      (t0 :: (fromResOut (streamFromAux uf src stop closed fuel k (rfc3339 wv) lf acc fs sc)).map Prod.snd) := by
  intro fuel
  induction fuel with
  | zero =>
    intro k wv lf acc fs sc hhd hch
    exact chain_exit acc t0 hch
  | succ fuel ih =>
    intro k wv lf acc fs sc hhd hch
    simp only [streamFromAux]
    by_cases hsk : stop k = true
    · rw [if_pos hsk]
      exact chain_exit acc t0 hch
    · rw [if_neg hsk]
      by_cases hf : buildFilter (rfc3339 wv) = lf
      · rw [if_pos hf]
        exact chain_exit acc t0 hch
      · rw [if_neg hf]
        rcases hE : emitEntries closed (src k (histQuery uf (rfc3339 wv))).1 sc (rfc3339 wv) acc
          with ⟨pan, acc2, sc2, lt2⟩
        obtain ⟨wv2, hhd2, hlt2, hch2⟩ := emitEntries_mono closed _ sc wv acc t0 pan acc2 sc2 lt2
          hE hhd hch (hsorted k _) (fun e he => hhonest k wv e he)
        dsimp only
        cases pan with
        | some msg => exact chain_exit acc2 t0 hch2
        | none =>
          cases hE2 : (src k (histQuery uf (rfc3339 wv))).2 with
          | some e2 => exact chain_exit acc2 t0 hch2
          | none =>
            dsimp only
            rw [hlt2]
            exact ih (k + 1) wv2 _ acc2 _ sc2 hhd2 hch2

/-- C5: across any sequence of historical pages from a source that honours
the time-range filter (each returned entry is no older than the watermark
the filter was built from, and each page is in timestamp order), the
watermark — initialized from the resolved freshness instant and advanced to
each delivered entry's timestamp — is monotonically non-decreasing over the
session. -/
theorem c5_watermark_monotone (st : GCPStream) (w : World) (fuel : Nat) (t0 : Nat)
    (hfresh : st.freshness = rfc3339 t0)
    (hsorted : ∀ k q, List.Pairwise (· ≤ ·) (((w.src k q).1).map getTimestamp))
    (hhonest : ∀ k t e, e ∈ (w.src k (histQuery st.filter (rfc3339 t))).1 → t ≤ getTimestamp e) :
    List.Chain' (· ≤ ·) (t0 :: (fromResOut (streamFrom st w fuel)).map Prod.snd) := by
  unfold streamFrom
  rw [hfresh]
  exact streamFromAux_mono st.filter w.src w.stop w.closed t0 hsorted hhonest
    fuel 0 t0 "" [] [] 0 rfl (by simp)

/-- C5 witness: the watermark trace of a concrete historical session. -/
theorem c5_witness :
    List.Chain' (· ≤ ·) (0 :: (fromResOut (streamFrom stHist wEmpty 5)).map Prod.snd) :=
  c5_watermark_monotone stHist wEmpty 5 0 rfl
    (fun k q => by simp [wEmpty, eSrc])
    (fun k t e he => absurd he (by simp [wEmpty, eSrc]))

end Loggo
